import Mathlib

/-!
Verification of the desert-ranch simulation core: the cowboy player controller
(vertical physics, jump, damage/lives state machine with cooldown), the cactus
hazards (Choya, BarrelCactus) and their collision predicate, the orchestrator's
per-tick damage phase and spine-effect aging (RanchGame.update), and the
ambient-animal wander behavior (Horse, Cow, Chicken).

Numbers that the TypeScript source stores in IEEE doubles are modelled as
rationals; all constants of the source (0.12, 0.4, -0.015, 0.3, 1.0, 1.2, 0.6,
80, ...) are exactly representable.  Square roots (THREE.Vector3.distanceTo,
Math.sqrt) are eliminated by comparing squares: for d ≥ 0 and a bound b,
√d < b ↔ 0 < b ∧ d < b², which is proved against Real.sqrt below.  Calls to
Math.random() are passed in as explicit parameters u ∈ [0, 1), and the
transcendental functions Math.sin/Math.cos/Math.atan2 and the constant 2π used
by the animal wander code are abstracted as an explicit trig interface.
-/

set_option linter.unnecessarySeqFocus false
set_option linter.unusedVariables false

namespace Ranch

/-- Player settings of CowboyPlayer (Choya.ts lines 358-371). -/
def speed : ℚ := 12/100

/-- jumpForce = 0.4 (Choya.ts line 359). -/
def jumpForce : ℚ := 2/5

/-- gravity = -0.015 per tick (Choya.ts line 360). -/
def gravity : ℚ := -3/200

/-- groundY = 0.3: player center height when standing (Choya.ts line 361). -/
def groundY : ℚ := 3/10

/-- damageCooldownTime = 1.0 second (Choya.ts line 371). -/
def damageCooldownTime : ℚ := 1

/-- getRadius() of the player = 0.4 (Choya.ts line 648). -/
def playerRadius : ℚ := 2/5

/-- The mutable state of CowboyPlayer that the simulation claims concern:
lives, damage cooldown and the vertical physics state.  Horizontal position,
facing and the camera orbit are omitted: no field modelled here reads them. -/
@[ext]
structure CowboyPlayer where
  lives : ℤ
  damageCooldown : ℚ
  posY : ℚ
  velY : ℚ
  onGround : Bool
deriving DecidableEq, Repr

/-- The cooldown decrement at the top of CowboyPlayer.update (lines 487-489):
`if (this.damageCooldown > 0) { this.damageCooldown -= deltaTime; }`.
Note the source has no floor at 0. -/
def CowboyPlayer.cooldownTick (dt : ℚ) (s : CowboyPlayer) : CowboyPlayer :=
  if 0 < s.damageCooldown then { s with damageCooldown := s.damageCooldown - dt } else s

/-- The jump branch of CowboyPlayer.handleInput (lines 539-547):
`if (shouldJump && this.onGround) { this.velocity.y = this.jumpForce;
this.onGround = false; }`.  The movement and camera branches of handleInput
mutate only horizontal position, facing and camera fields, none of which are
part of this state. -/
def CowboyPlayer.handleInput (shouldJump : Bool) (s : CowboyPlayer) : CowboyPlayer :=
  if shouldJump && s.onGround then { s with velY := jumpForce, onGround := false } else s

/-- CowboyPlayer.applyPhysics (lines 569-573): `this.velocity.y += this.gravity;
this.position.y += this.velocity.y;`. -/
def CowboyPlayer.applyPhysics (s : CowboyPlayer) : CowboyPlayer :=
  { s with velY := s.velY + gravity, posY := s.posY + (s.velY + gravity) }

/-- CowboyPlayer.checkGroundCollision (lines 575-583): snap to groundY, zero
vertical velocity and set onGround when at or below groundY, else clear
onGround. -/
def CowboyPlayer.checkGroundCollision (s : CowboyPlayer) : CowboyPlayer :=
  if s.posY ≤ groundY then { s with posY := groundY, velY := 0, onGround := true }
  else { s with onGround := false }

/-- CowboyPlayer.update (lines 485-496): cooldown decrement, input handling,
physics integration, ground resolution.  updateMesh and updateCamera touch only
visual state and are omitted. -/
def CowboyPlayer.update (dt : ℚ) (shouldJump : Bool) (s : CowboyPlayer) : CowboyPlayer :=
  CowboyPlayer.checkGroundCollision
    (CowboyPlayer.applyPhysics (CowboyPlayer.handleInput shouldJump (CowboyPlayer.cooldownTick dt s)))

/-- One tick of the free-fall pipeline with no input: applyPhysics followed by
checkGroundCollision. -/
def CowboyPlayer.vertStep (s : CowboyPlayer) : CowboyPlayer :=
  CowboyPlayer.checkGroundCollision (CowboyPlayer.applyPhysics s)

/-- CowboyPlayer.takeDamage (lines 626-641): guarded by
`if (this.damageCooldown <= 0 && this.lives > 0)`; on success decrements lives
and resets the cooldown.  The color flash is wall-clock visual feedback with no
effect on this state. -/
def CowboyPlayer.takeDamage (s : CowboyPlayer) : CowboyPlayer :=
  if s.damageCooldown ≤ 0 ∧ 0 < s.lives then
    { s with lives := s.lives - 1, damageCooldown := damageCooldownTime }
  else s

/-- Run a list of simulation ticks (only their cooldown decrements) between two
takeDamage calls. -/
def CowboyPlayer.ticksThen (s : CowboyPlayer) (dts : List ℚ) : CowboyPlayer :=
  dts.foldl (fun t dt => CowboyPlayer.cooldownTick dt t) s

/-- A sequence of takeDamage calls: an initial call, then for each episode a
run of ticks followed by another call.  The episode durations are the spacings
between consecutive calls. -/
def CowboyPlayer.damageRun (s : CowboyPlayer) (eps : List (List ℚ)) : CowboyPlayer :=
  eps.foldl (fun t ep => CowboyPlayer.takeDamage (CowboyPlayer.ticksThen t ep))
    (CowboyPlayer.takeDamage s)

/-- The comparison `Math.sqrt dsq < bound` (THREE.Vector3.distanceTo against a
radius sum), written without square roots: for dsq ≥ 0, √dsq < bound iff
0 < bound and dsq < bound².  The equivalence with Real.sqrt is proved in
sqrtLt_iff_sqrt below. -/
def sqrtLt (dsq bound : ℚ) : Bool :=
  decide (0 < bound ∧ dsq < bound ^ 2)

/-- A Choya cactus (Choya.ts lines 17-38): ground-anchored position (x, 0, z),
size multiplier, and the modelLoaded flag set by the async GLB load. -/
structure Choya where
  x : ℚ
  z : ℚ
  size : ℚ
  modelLoaded : Bool
deriving DecidableEq, Repr

/-- Choya.collisionRadius: initialized to 1.2 (line 22) and recalibrated to
1.2 * size when the model finishes loading (line 59). -/
def Choya.collisionRadius (c : Choya) : ℚ :=
  if c.modelLoaded then (6/5) * c.size else 6/5

/-- Choya.checkCollision (lines 88-102): false until the model is loaded
(`if (!this.mesh || !this.modelLoaded) return false`); otherwise compares the
3D distance from the player position to the hazard center — the mesh position
(x, 0, z) offset vertically by +0.6 — against collisionRadius + playerRadius,
strictly. -/
def Choya.checkCollision (c : Choya) (px py pz pr : ℚ) : Bool :=
  if !c.modelLoaded then false
  else sqrtLt ((c.x - px) ^ 2 + (3/5 - py) ^ 2 + (c.z - pz) ^ 2) (c.collisionRadius + pr)

/-- A BarrelCactus (Player.ts lines 291-312): same shape of state as Choya. -/
structure BarrelCactus where
  x : ℚ
  z : ℚ
  size : ℚ
  modelLoaded : Bool
deriving DecidableEq, Repr

/-- BarrelCactus.collisionRadius: initialized to 0.6 (line 296) and
recalibrated to 0.6 * size on load (line 330). -/
def BarrelCactus.collisionRadius (c : BarrelCactus) : ℚ :=
  if c.modelLoaded then (3/5) * c.size else 3/5

/-- BarrelCactus.checkCollision (Player.ts lines 359-373): as for Choya but
with the center offset +0.3 * size. -/
def BarrelCactus.checkCollision (c : BarrelCactus) (px py pz pr : ℚ) : Bool :=
  if !c.modelLoaded then false
  else sqrtLt ((c.x - px) ^ 2 + ((3/10) * c.size - py) ^ 2 + (c.z - pz) ^ 2)
    (c.collisionRadius + pr)

/-- The choya loop of RanchGame.update (lines 267-290), restricted to the
player's lives/cooldown state: for each choya, on collision with the (fixed)
player position call takeDamage.  Spine spawning does not touch the player
state and is modelled separately. -/
def choyaPhase (cs : List Choya) (px py pz pr : ℚ) (s : CowboyPlayer) : CowboyPlayer :=
  cs.foldl
    (fun t c => if Choya.checkCollision c px py pz pr then CowboyPlayer.takeDamage t else t) s

/-- The barrel-cactus loop of RanchGame.update (lines 293-316). -/
def barrelPhase (bs : List BarrelCactus) (px py pz pr : ℚ) (s : CowboyPlayer) : CowboyPlayer :=
  bs.foldl
    (fun t b => if BarrelCactus.checkCollision b px py pz pr then CowboyPlayer.takeDamage t else t)
    s

/-- The full damage phase of one RanchGame.update tick: the choya loop followed
by the barrel-cactus loop, both reading the same player position. -/
def hazardPhase (cs : List Choya) (bs : List BarrelCactus) (px py pz pr : ℚ)
    (s : CowboyPlayer) : CowboyPlayer :=
  barrelPhase bs px py pz pr (choyaPhase cs px py pz pr s)

/-- One active spine effect of RanchGame (SpineData, RanchGame.ts lines
17-21), with the mutable opacity of its material. -/
structure SpineData where
  startTime : ℚ
  fadeDuration : ℚ
  opacity : ℚ
deriving DecidableEq, Repr

/-- The spine-aging pass of RanchGame.update (lines 318-336): walk the active
list; an effect whose elapsed = now − startTime has reached fadeDuration is
detached and removed; a surviving effect gets opacity 1 − elapsed/fadeDuration.
The source iterates backwards splicing in place, which removes exactly the
expired entries and keeps the rest in order. -/
def ageSpines (now : ℚ) : List SpineData → List SpineData
  | [] => []
  | sp :: rest =>
      if sp.fadeDuration ≤ now - sp.startTime then ageSpines now rest
      else { sp with opacity := 1 - (now - sp.startTime) / sp.fadeDuration } :: ageSpines now rest

/-- The spine cleanup of RanchGame.dispose (lines 356-365): every remaining
active spine is detached and the active set is emptied at once, without
waiting for expiry. -/
def disposeSpines (sps : List SpineData) : List SpineData := []

/-- Ambient-actor wander state (Horse.ts lines 21-24, Cow, Chicken alike). -/
structure WanderState where
  x : ℚ
  z : ℚ
  wanderDirection : ℚ
  wanderTimer : ℚ
deriving DecidableEq, Repr

/-- Per-species wander constants: movement speed per tick, and the base and
range of the randomized direction-change threshold. -/
structure SpeciesParams where
  speed : ℚ
  thresholdBase : ℚ
  thresholdRange : ℚ
deriving DecidableEq, Repr

/-- Horse (Horse.ts lines 103, 110): threshold 3 + random()*4, speed 0.02. -/
def horseParams : SpeciesParams := { speed := 1/50, thresholdBase := 3, thresholdRange := 4 }

/-- Cow (Choya.ts lines 279, 286): threshold 4 + random()*5, speed 0.01. -/
def cowParams : SpeciesParams := { speed := 1/100, thresholdBase := 4, thresholdRange := 5 }

/-- Chicken (lines 110, 117 of its file): threshold 1 + random()*2,
speed 0.015. -/
def chickenParams : SpeciesParams := { speed := 3/200, thresholdBase := 1, thresholdRange := 2 }

/-- The transcendental functions used by the wander code (Math.sin, Math.cos,
Math.atan2) and the constant 2π, abstracted: they are not representable over
ℚ, and no claim about the wander logic depends on their values. -/
structure TrigModel where
  sinF : ℚ → ℚ
  cosF : ℚ → ℚ
  atan2F : ℚ → ℚ → ℚ
  twoPiF : ℚ

/-- maxDistance = 80: the soft circular world boundary (Horse.ts line 115). -/
def wanderMaxDistance : ℚ := 80

/-- The timer/redraw block of the wander update (Horse.ts lines 101-107):
increment wanderTimer by deltaTime; when it exceeds the per-species randomized
threshold (`base + u1·range`, u1 a fresh Math.random() draw), pick the new
heading u2·2π (u2 a fresh draw, uniform in [0, 2π) for u2 ∈ [0, 1)) and reset
the timer. -/
def wanderRedraw (T : TrigModel) (P : SpeciesParams) (dt u1 u2 : ℚ)
    (s : WanderState) : WanderState :=
  if P.thresholdBase + u1 * P.thresholdRange < s.wanderTimer + dt then
    { s with wanderDirection := u2 * T.twoPiF, wanderTimer := 0 }
  else { s with wanderTimer := s.wanderTimer + dt }

/-- The unconditional displacement block (Horse.ts lines 109-112): move by
(sin heading, cos heading) · speed every tick. -/
def wanderMove (T : TrigModel) (P : SpeciesParams) (s : WanderState) : WanderState :=
  { s with
    x := s.x + T.sinF s.wanderDirection * P.speed,
    z := s.z + T.cosF s.wanderDirection * P.speed }

/-- The boundary block (Horse.ts lines 114-120): when the post-move distance
from the origin exceeds maxDistance (√(x²+z²) > 80, i.e. x²+z² > 80²),
override the heading to atan2(−x, −z), pointing back at the origin. -/
def wanderBoundary (T : TrigModel) (s : WanderState) : WanderState :=
  if wanderMaxDistance ^ 2 < s.x ^ 2 + s.z ^ 2 then
    { s with wanderDirection := T.atan2F (-s.x) (-s.z) }
  else s

/-- One full wander update tick (Horse.update / Cow.update / Chicken.update):
timer/redraw, then displacement, then boundary turn-back. -/
def wanderUpdate (T : TrigModel) (P : SpeciesParams) (dt u1 u2 : ℚ)
    (s : WanderState) : WanderState :=
  wanderBoundary T (wanderMove T P (wanderRedraw T P dt u1 u2 s))

/-- The heading in effect during a tick's displacement: the freshly drawn one
when the timer fired, the carried one otherwise. -/
def wanderHeading (T : TrigModel) (P : SpeciesParams) (dt u1 u2 : ℚ)
    (s : WanderState) : ℚ :=
  if P.thresholdBase + u1 * P.thresholdRange < s.wanderTimer + dt then u2 * T.twoPiF
  else s.wanderDirection

/-- A ready player state: 3 lives, no pending cooldown, standing on the
ground.  This is the state a fresh CowboyPlayer is in (lives start at 3,
damageCooldown at 0). -/
def c3Start : CowboyPlayer :=
  { lives := 3, damageCooldown := 0, posY := 3/10, velY := 0, onGround := true }

/-- A player state mid-cooldown: 0.5 s of cooldown remaining. -/
def c4Start : CowboyPlayer :=
  { lives := 3, damageCooldown := 1/2, posY := 3/10, velY := 0, onGround := true }

end Ranch

namespace Ranch

/-- Helper: `takeDamage` on a ready state (cooldown ≤ 0, lives > 0). -/
theorem takeDamage_of_ready {s : CowboyPlayer} (h1 : s.damageCooldown ≤ 0) (h2 : 0 < s.lives) :
    CowboyPlayer.takeDamage s =
      { s with lives := s.lives - 1, damageCooldown := damageCooldownTime } := by
  unfold CowboyPlayer.takeDamage
  rw [if_pos ⟨h1, h2⟩]

/-- Helper: `takeDamage` is the identity when its guard fails. -/
theorem takeDamage_of_blocked {s : CowboyPlayer} (h : ¬(s.damageCooldown ≤ 0 ∧ 0 < s.lives)) :
    CowboyPlayer.takeDamage s = s := by
  unfold CowboyPlayer.takeDamage
  rw [if_neg h]

/-- Helper: one takeDamage call keeps lives nonnegative. -/
theorem takeDamage_lives_nonneg {s : CowboyPlayer} (h : 0 ≤ s.lives) :
    0 ≤ (CowboyPlayer.takeDamage s).lives := by
  unfold CowboyPlayer.takeDamage
  split
  case isTrue hg => simpa using hg.2
  case isFalse hg => simpa using h

/-- C1: takeDamage() is a no-op whenever damageCooldownRemaining > 0 or
lives == 0; otherwise it decrements lives by exactly 1 and sets the cooldown to
the cooldown duration, which is 1.0 s; consequently along any sequence of
takeDamage() calls lives never becomes negative and a state with lives == 0 is
never left. -/
theorem takeDamage_spec (s : CowboyPlayer) :
    (0 < s.damageCooldown ∨ s.lives = 0 → CowboyPlayer.takeDamage s = s) ∧
    (s.damageCooldown ≤ 0 ∧ 0 < s.lives →
      (CowboyPlayer.takeDamage s).lives = s.lives - 1 ∧
      (CowboyPlayer.takeDamage s).damageCooldown = damageCooldownTime ∧
      damageCooldownTime = 1) ∧
    (∀ n : ℕ,
      (0 ≤ s.lives → 0 ≤ (CowboyPlayer.takeDamage^[n] s).lives) ∧
      (s.lives = 0 → CowboyPlayer.takeDamage^[n] s = s)) := by
  refine ⟨?_, ?_, ?_⟩
  · intro h
    apply takeDamage_of_blocked
    rintro ⟨hcd, hl⟩
    rcases h with h | h
    · exact absurd hcd (not_le.mpr h)
    · exact absurd h (by omega)
  · intro h
    rw [takeDamage_of_ready h.1 h.2]
    exact ⟨rfl, rfl, rfl⟩
  · intro n
    constructor
    · intro h
      induction n with
      | zero => simpa using h
      | succ k ih =>
          rw [Function.iterate_succ_apply']
          exact takeDamage_lives_nonneg ih
    · intro h
      induction n with
      | zero => rfl
      | succ k ih =>
          rw [Function.iterate_succ_apply', ih]
          apply takeDamage_of_blocked
          rintro ⟨-, hl⟩
          omega

/-- C1 witness: concrete evaluation of takeDamage_spec at a ready state with
3 lives and no pending cooldown. -/
theorem takeDamage_spec_witness :
    (CowboyPlayer.takeDamage
      { lives := 3, damageCooldown := 0, posY := 3/10, velY := 0, onGround := true }).lives = 2 := by
  have h := (takeDamage_spec
    { lives := 3, damageCooldown := 0, posY := 3/10, velY := 0, onGround := true }).2.1
    ⟨le_refl 0, by norm_num⟩
  simpa using h.1

/-- C7: while grounded, a jump input sets velocity.y to jumpForce and clears
onGround; while airborne, the jump branch leaves the whole state (velocity.y in
particular) unchanged. -/
theorem handleInput_jump_spec (j : Bool) (s : CowboyPlayer) :
    (j = true → s.onGround = true →
      (CowboyPlayer.handleInput j s).velY = jumpForce ∧
      (CowboyPlayer.handleInput j s).onGround = false) ∧
    (s.onGround = false → CowboyPlayer.handleInput j s = s) := by
  constructor
  · intro hj hg
    unfold CowboyPlayer.handleInput
    rw [hj, hg]
    exact ⟨rfl, rfl⟩
  · intro hg
    unfold CowboyPlayer.handleInput
    rw [hg]
    simp

/-- C7 witness: a grounded jump and an airborne jump evaluated concretely. -/
theorem handleInput_jump_spec_witness :
    (CowboyPlayer.handleInput true
      { lives := 3, damageCooldown := 0, posY := 3/10, velY := 0, onGround := true }).velY
        = jumpForce ∧
    CowboyPlayer.handleInput true
      { lives := 3, damageCooldown := 0, posY := 1, velY := 0, onGround := false } =
      { lives := 3, damageCooldown := 0, posY := 1, velY := 0, onGround := false } := by
  constructor
  · exact ((handleInput_jump_spec true
      { lives := 3, damageCooldown := 0, posY := 3/10, velY := 0, onGround := true }).1 rfl rfl).1
  · exact (handleInput_jump_spec true
      { lives := 3, damageCooldown := 0, posY := 1, velY := 0, onGround := false }).2 rfl

/-- Helper: running ticks whose total duration stays strictly below the current
cooldown only subtracts that total from the cooldown. -/
theorem ticksThen_of_lt (dts : List ℚ) (s : CowboyPlayer)
    (hnn : ∀ dt ∈ dts, 0 ≤ dt) (hlt : dts.sum < s.damageCooldown) :
    CowboyPlayer.ticksThen s dts =
      { s with damageCooldown := s.damageCooldown - dts.sum } := by
  induction dts generalizing s with
  | nil => simp [CowboyPlayer.ticksThen]
  | cons dt rest ih =>
      have hdt : 0 ≤ dt := hnn dt (List.mem_cons_self _ _)
      have hrest : ∀ x ∈ rest, 0 ≤ x := fun x hx => hnn x (List.mem_cons_of_mem _ hx)
      have hrsum : 0 ≤ rest.sum := List.sum_nonneg hrest
      have hsc : dt + rest.sum < s.damageCooldown := by
        simpa [List.sum_cons] using hlt
      have hpos : 0 < s.damageCooldown := lt_of_le_of_lt (add_nonneg hdt hrsum) hsc
      have hct : CowboyPlayer.cooldownTick dt s =
          { s with damageCooldown := s.damageCooldown - dt } := by
        unfold CowboyPlayer.cooldownTick
        rw [if_pos hpos]
      have hstep : CowboyPlayer.ticksThen s (dt :: rest) =
          CowboyPlayer.ticksThen (CowboyPlayer.cooldownTick dt s) rest := rfl
      have hlt2 : rest.sum <
          ({ s with damageCooldown := s.damageCooldown - dt } : CowboyPlayer).damageCooldown := by
        show rest.sum < s.damageCooldown - dt
        linarith
      rw [hstep, hct, ih _ hrest hlt2]
      ext <;> simp [List.sum_cons] <;> ring

/-- Helper: a run of (ticks; takeDamage) episodes whose total tick time stays
strictly below the current cooldown never succeeds in damaging: it only drains
the cooldown by the total elapsed time. -/
theorem damageEpisodes_noop (eps : List (List ℚ)) (s : CowboyPlayer)
    (hnn : ∀ ep ∈ eps, ∀ dt ∈ ep, 0 ≤ dt)
    (hlt : (eps.map List.sum).sum < s.damageCooldown) :
    eps.foldl (fun t ep => CowboyPlayer.takeDamage (CowboyPlayer.ticksThen t ep)) s =
      { s with damageCooldown := s.damageCooldown - (eps.map List.sum).sum } := by
  induction eps generalizing s with
  | nil => simp
  | cons ep rest ih =>
      have hep : ∀ dt ∈ ep, 0 ≤ dt := hnn ep (List.mem_cons_self _ _)
      have hrest : ∀ e ∈ rest, ∀ dt ∈ e, 0 ≤ dt := fun e he => hnn e (List.mem_cons_of_mem _ he)
      have hepnn : 0 ≤ ep.sum := List.sum_nonneg hep
      have hrsum : 0 ≤ (rest.map List.sum).sum := by
        apply List.sum_nonneg
        intro x hx
        rcases List.mem_map.mp hx with ⟨e, he, rfl⟩
        exact List.sum_nonneg (hrest e he)
      have hsc : ep.sum + (rest.map List.sum).sum < s.damageCooldown := by
        simpa [List.map_cons, List.sum_cons] using hlt
      have h1 : ep.sum < s.damageCooldown := by linarith
      have hticks := ticksThen_of_lt ep s hep h1
      have hblocked : CowboyPlayer.takeDamage
          ({ s with damageCooldown := s.damageCooldown - ep.sum } : CowboyPlayer) =
          { s with damageCooldown := s.damageCooldown - ep.sum } := by
        apply takeDamage_of_blocked
        rintro ⟨hc, -⟩
        have : s.damageCooldown - ep.sum ≤ 0 := hc
        linarith
      have hstep : (ep :: rest).foldl
          (fun t e => CowboyPlayer.takeDamage (CowboyPlayer.ticksThen t e)) s =
          rest.foldl (fun t e => CowboyPlayer.takeDamage (CowboyPlayer.ticksThen t e))
            (CowboyPlayer.takeDamage (CowboyPlayer.ticksThen s ep)) := rfl
      have hlt2 : (rest.map List.sum).sum <
          ({ s with damageCooldown := s.damageCooldown - ep.sum } : CowboyPlayer).damageCooldown := by
        show (rest.map List.sum).sum < s.damageCooldown - ep.sum
        linarith
      rw [hstep, hticks, hblocked, ih _ hrest hlt2]
      ext <;> simp [List.map_cons, List.sum_cons] <;> ring

/-- C3 counterexample: three takeDamage() calls at times 0, 0.6 and 1.2 —
consecutive calls spaced 0.6 s < cooldownDuration apart, with the per-tick
cooldown decrement running between them — cost 2 lives in total, not 1.  The
cooldown set by the first hit has been drained to 1 − 0.6 − 0.6 < 0 by the
third call, which therefore succeeds again. -/
theorem damageRun_spacing_counterexample :
    c3Start.damageCooldown ≤ 0 ∧ 0 < c3Start.lives ∧
    (3/5 : ℚ) < damageCooldownTime ∧
    (CowboyPlayer.damageRun c3Start [[3/5], [3/5]]).lives = c3Start.lives - 2 := by
  refine ⟨by norm_num [c3Start], by norm_num [c3Start], by norm_num [damageCooldownTime], ?_⟩
  norm_num [CowboyPlayer.damageRun, CowboyPlayer.ticksThen, CowboyPlayer.takeDamage,
    CowboyPlayer.cooldownTick, c3Start, damageCooldownTime]

/-- C3 amended: for any sequence of takeDamage() calls that all occur within
cooldownDuration of the first call — the tick time elapsed after the first
call, i.e. the sum of all spacings, totals strictly less than cooldownDuration
— lives decreases by exactly 1 over the whole sequence, not once per call.
(Pairwise spacing below cooldownDuration is not enough: spacings accumulate
against the single cooldown set by the first successful call, see the
counterexample.) -/
theorem damageRun_within_cooldown (s : CowboyPlayer) (eps : List (List ℚ))
    (hcd : s.damageCooldown ≤ 0) (hl : 0 < s.lives)
    (hnn : ∀ ep ∈ eps, ∀ dt ∈ ep, 0 ≤ dt)
    (hsum : (eps.map List.sum).sum < damageCooldownTime) :
    (CowboyPlayer.damageRun s eps).lives = s.lives - 1 := by
  unfold CowboyPlayer.damageRun
  rw [takeDamage_of_ready hcd hl]
  rw [damageEpisodes_noop eps _ hnn hsum]

/-- C3 witness: two follow-up calls at 0.25 s and 0.5 s after the first, all
within the 1 s cooldown: exactly one life is lost. -/
theorem damageRun_within_cooldown_witness :
    (CowboyPlayer.damageRun c3Start [[1/4], [1/4]]).lives = c3Start.lives - 1 := by
  apply damageRun_within_cooldown
  · norm_num [c3Start]
  · norm_num [c3Start]
  · intro ep hep dt hdt
    simp only [List.mem_cons, List.not_mem_nil, or_false] at hep
    rcases hep with rfl | rfl <;>
      simp only [List.mem_cons, List.not_mem_nil, or_false] at hdt <;>
      rw [hdt] <;> norm_num
  · norm_num [damageCooldownTime]

/-- C4 counterexample: a tick of 1 s from a state with 0.5 s of cooldown
remaining leaves the cooldown at −0.5 < 0: the decrement is not floored at
0. -/
theorem cooldownTick_negative_counterexample :
    0 ≤ c4Start.damageCooldown ∧ (0 : ℚ) ≤ 1 ∧
    (CowboyPlayer.cooldownTick 1 c4Start).damageCooldown < 0 := by
  refine ⟨by norm_num [c4Start], by norm_num, ?_⟩
  norm_num [CowboyPlayer.cooldownTick, c4Start]

/-- C4 amended: the per-tick update decrements damageCooldownRemaining by
deltaTime only while it is positive and does not floor it at 0, so the
cooldown can become negative — though never by more than deltaTime below 0 —
and once non-positive it is left unchanged by further ticks.  The damage gate
accepts any non-positive value, so the observable behavior matches a cooldown
floored at 0. -/
theorem cooldownTick_spec (dt : ℚ) (s : CowboyPlayer) (hdt : 0 ≤ dt) :
    (0 < s.damageCooldown →
      (CowboyPlayer.cooldownTick dt s).damageCooldown = s.damageCooldown - dt) ∧
    (s.damageCooldown ≤ 0 → CowboyPlayer.cooldownTick dt s = s) ∧
    s.damageCooldown - dt ≤ (CowboyPlayer.cooldownTick dt s).damageCooldown ∧
    (0 ≤ s.damageCooldown → -dt ≤ (CowboyPlayer.cooldownTick dt s).damageCooldown) := by
  unfold CowboyPlayer.cooldownTick
  split
  case isTrue h =>
    refine ⟨fun _ => rfl, fun hle => absurd h (not_lt.mpr hle), le_refl _, fun h0 => ?_⟩
    show -dt ≤ s.damageCooldown - dt
    linarith
  case isFalse h =>
    have hle : s.damageCooldown ≤ 0 := not_lt.mp h
    exact ⟨fun hc => absurd hc h, fun _ => rfl, by linarith, fun h0 => by linarith⟩

/-- C4 witness: cooldownTick_spec evaluated at deltaTime = 1 from 0.5 s of
cooldown: the result is bounded below by −deltaTime. -/
theorem cooldownTick_spec_witness :
    (-1 : ℚ) ≤ (CowboyPlayer.cooldownTick 1 c4Start).damageCooldown :=
  (cooldownTick_spec 1 c4Start (by norm_num)).2.2.2 (by norm_num [c4Start])

/-- Helper: sqrtLt is exactly the real square-root comparison performed by the
source. -/
theorem sqrtLt_iff_sqrt (dsq bound : ℚ) :
    sqrtLt dsq bound = true ↔ Real.sqrt (dsq : ℝ) < (bound : ℝ) := by
  unfold sqrtLt
  rw [decide_eq_true_iff]
  constructor
  · rintro ⟨hb, hlt⟩
    have hb' : (0 : ℝ) < (bound : ℝ) := by exact_mod_cast hb
    rw [Real.sqrt_lt' hb']
    exact_mod_cast hlt
  · intro hs
    have hb' : (0 : ℝ) < (bound : ℝ) := lt_of_le_of_lt (Real.sqrt_nonneg _) hs
    have hlt' : (dsq : ℝ) < (bound : ℝ) ^ 2 := (Real.sqrt_lt' hb').mp hs
    exact ⟨by exact_mod_cast hb', by exact_mod_cast hlt'⟩

/-- Helper: Choya.checkCollision unfolded to the real distance comparison. -/
theorem choya_checkCollision_iff (c : Choya) (px py pz pr : ℚ) :
    Choya.checkCollision c px py pz pr = true ↔
      c.modelLoaded = true ∧
        Real.sqrt (((c.x : ℝ) - (px : ℝ)) ^ 2 + ((3/5 : ℝ) - (py : ℝ)) ^ 2 +
            ((c.z : ℝ) - (pz : ℝ)) ^ 2) <
          (c.collisionRadius : ℝ) + (pr : ℝ) := by
  unfold Choya.checkCollision
  cases hcl : c.modelLoaded
  · simp
  · simp only [Bool.not_true, Bool.false_eq_true, if_false, true_and]
    rw [sqrtLt_iff_sqrt]
    push_cast
    rfl

/-- Helper: BarrelCactus.checkCollision unfolded to the real distance
comparison. -/
theorem barrel_checkCollision_iff (b : BarrelCactus) (px py pz pr : ℚ) :
    BarrelCactus.checkCollision b px py pz pr = true ↔
      b.modelLoaded = true ∧
        Real.sqrt (((b.x : ℝ) - (px : ℝ)) ^ 2 + ((3/10 : ℝ) * (b.size : ℝ) - (py : ℝ)) ^ 2 +
            ((b.z : ℝ) - (pz : ℝ)) ^ 2) <
          (b.collisionRadius : ℝ) + (pr : ℝ) := by
  unfold BarrelCactus.checkCollision
  cases hcl : b.modelLoaded
  · simp
  · simp only [Bool.not_true, Bool.false_eq_true, if_false, true_and]
    rw [sqrtLt_iff_sqrt]
    push_cast
    rfl

/-- C5: for both hazard species, checkCollision returns true iff the model has
finished loading AND the 3D distance between the actor position and the
vertically offset hazard center (+0.6 for Choya, +0.3·size for BarrelCactus)
is strictly less than collisionRadius + actorRadius; in particular it is false
for an unloaded hazard even when geometrically overlapping, and false when the
distance exactly equals the radius sum. -/
theorem checkCollision_spec (c : Choya) (b : BarrelCactus) (px py pz pr : ℚ) :
    (Choya.checkCollision c px py pz pr = true ↔
      c.modelLoaded = true ∧
        Real.sqrt (((c.x : ℝ) - (px : ℝ)) ^ 2 + ((3/5 : ℝ) - (py : ℝ)) ^ 2 +
            ((c.z : ℝ) - (pz : ℝ)) ^ 2) <
          (c.collisionRadius : ℝ) + (pr : ℝ)) ∧
    (BarrelCactus.checkCollision b px py pz pr = true ↔
      b.modelLoaded = true ∧
        Real.sqrt (((b.x : ℝ) - (px : ℝ)) ^ 2 + ((3/10 : ℝ) * (b.size : ℝ) - (py : ℝ)) ^ 2 +
            ((b.z : ℝ) - (pz : ℝ)) ^ 2) <
          (b.collisionRadius : ℝ) + (pr : ℝ)) ∧
    (c.modelLoaded = false → Choya.checkCollision c px py pz pr = false) ∧
    (b.modelLoaded = false → BarrelCactus.checkCollision b px py pz pr = false) ∧
    ((c.x - px) ^ 2 + (3/5 - py) ^ 2 + (c.z - pz) ^ 2 = (c.collisionRadius + pr) ^ 2 →
      Choya.checkCollision c px py pz pr = false) ∧
    ((b.x - px) ^ 2 + ((3/10) * b.size - py) ^ 2 + (b.z - pz) ^ 2 =
        (b.collisionRadius + pr) ^ 2 →
      BarrelCactus.checkCollision b px py pz pr = false) := by
  refine ⟨choya_checkCollision_iff c px py pz pr, barrel_checkCollision_iff b px py pz pr,
    ?_, ?_, ?_, ?_⟩
  · intro h
    simp [Choya.checkCollision, h]
  · intro h
    simp [BarrelCactus.checkCollision, h]
  · intro h
    unfold Choya.checkCollision
    cases c.modelLoaded
    · simp
    · simp [sqrtLt, h]
  · intro h
    unfold BarrelCactus.checkCollision
    cases b.modelLoaded
    · simp
    · simp [sqrtLt, h]

/-- C5 witness: unloaded hazards placed exactly at the player's center still
report no collision. -/
theorem checkCollision_spec_witness :
    Choya.checkCollision { x := 0, z := 0, size := 1, modelLoaded := false } 0 (3/5) 0 (2/5)
      = false ∧
    BarrelCactus.checkCollision { x := 0, z := 0, size := 1, modelLoaded := false } 0 0 0 (2/5)
      = false := by
  have h := checkCollision_spec { x := 0, z := 0, size := 1, modelLoaded := false }
    { x := 0, z := 0, size := 1, modelLoaded := false } 0 (3/5) 0 (2/5)
  exact ⟨h.2.2.1 rfl, h.2.2.2.1 rfl⟩

/-- Helper: with a positive cooldown every conditional takeDamage in a hazard
loop is rejected, leaving the state unchanged. -/
theorem damageFold_blocked {α : Type} (f : α → Bool) (l : List α) (s : CowboyPlayer)
    (h : 0 < s.damageCooldown) :
    l.foldl (fun t c => if f c then CowboyPlayer.takeDamage t else t) s = s := by
  induction l with
  | nil => rfl
  | cons c rest ih =>
      have hone : (if f c then CowboyPlayer.takeDamage s else s) = s := by
        split
        · apply takeDamage_of_blocked
          rintro ⟨hc, -⟩
          linarith
        · rfl
      rw [List.foldl_cons, hone]
      exact ih

/-- Helper: a hazard loop with no colliding hazard leaves the state
unchanged. -/
theorem damageFold_nohit {α : Type} (f : α → Bool) (l : List α) (s : CowboyPlayer)
    (hhit : l.countP f = 0) :
    l.foldl (fun t c => if f c then CowboyPlayer.takeDamage t else t) s = s := by
  induction l with
  | nil => rfl
  | cons c rest ih =>
      have hc : f c = false := by
        cases hfc : f c
        · rfl
        · exfalso
          rw [List.countP_cons] at hhit
          simp [hfc] at hhit
      have hrest : rest.countP f = 0 := by
        rw [List.countP_cons] at hhit
        simpa [hc] using hhit
      rw [List.foldl_cons, if_neg (by simp [hc])]
      exact ih hrest

/-- Helper: a hazard loop entered with cooldown ≤ 0, lives > 0 and at least one
colliding hazard performs exactly one successful takeDamage: the first
colliding hazard decrements lives and arms the cooldown, which rejects every
later call within the same loop. -/
theorem damageFold_hit {α : Type} (f : α → Bool) (l : List α) (s : CowboyPlayer)
    (hcd : s.damageCooldown ≤ 0) (hl : 0 < s.lives) (hhit : l.countP f ≠ 0) :
    l.foldl (fun t c => if f c then CowboyPlayer.takeDamage t else t) s =
      { s with lives := s.lives - 1, damageCooldown := damageCooldownTime } := by
  induction l with
  | nil => simp [List.countP_nil] at hhit
  | cons c rest ih =>
      rw [List.foldl_cons]
      by_cases hc : f c = true
      · rw [if_pos hc, takeDamage_of_ready hcd hl]
        apply damageFold_blocked
        show (0 : ℚ) < damageCooldownTime
        norm_num [damageCooldownTime]
      · have hc' : f c = false := by
          cases hfc : f c
          · rfl
          · exact absurd hfc hc
        rw [if_neg (by simp [hc'])]
        apply ih
        rw [List.countP_cons] at hhit
        simpa [hc'] using hhit

/-- C2: in a single orchestrator tick entered with cooldown 0 and lives > 0,
overlapping two or more loaded hazards (choyas and/or barrel cacti) costs
exactly one life: lives decreases by exactly 1, the cooldown is armed to the
full (positive) cooldown duration, and every later colliding hazard's
takeDamage call in the same tick is rejected by the cooldown gate. -/
theorem hazardPhase_single_damage (cs : List Choya) (bs : List BarrelCactus)
    (px py pz pr : ℚ) (s : CowboyPlayer)
    (hcd : s.damageCooldown = 0) (hl : 0 < s.lives)
    (hhits : 2 ≤ cs.countP (fun c => Choya.checkCollision c px py pz pr) +
      bs.countP (fun b => BarrelCactus.checkCollision b px py pz pr)) :
    (hazardPhase cs bs px py pz pr s).lives = s.lives - 1 ∧
    (hazardPhase cs bs px py pz pr s).damageCooldown = damageCooldownTime ∧
    0 < (hazardPhase cs bs px py pz pr s).damageCooldown := by
  have hdpos : (0 : ℚ) < damageCooldownTime := by norm_num [damageCooldownTime]
  by_cases hc : cs.countP (fun c => Choya.checkCollision c px py pz pr) = 0
  · have hbs : bs.countP (fun b => BarrelCactus.checkCollision b px py pz pr) ≠ 0 := by omega
    have h1 : choyaPhase cs px py pz pr s = s :=
      damageFold_nohit (fun c => Choya.checkCollision c px py pz pr) cs s hc
    have h2 : barrelPhase bs px py pz pr s =
        { s with lives := s.lives - 1, damageCooldown := damageCooldownTime } :=
      damageFold_hit (fun b => BarrelCactus.checkCollision b px py pz pr) bs s
        (le_of_eq hcd) hl hbs
    unfold hazardPhase
    rw [h1, h2]
    exact ⟨rfl, rfl, hdpos⟩
  · have h1 : choyaPhase cs px py pz pr s =
        { s with lives := s.lives - 1, damageCooldown := damageCooldownTime } :=
      damageFold_hit (fun c => Choya.checkCollision c px py pz pr) cs s (le_of_eq hcd) hl hc
    have h2 : barrelPhase bs px py pz pr
        ({ s with lives := s.lives - 1, damageCooldown := damageCooldownTime }) =
        { s with lives := s.lives - 1, damageCooldown := damageCooldownTime } :=
      damageFold_blocked (fun b => BarrelCactus.checkCollision b px py pz pr) bs _ hdpos
    unfold hazardPhase
    rw [h1, h2]
    exact ⟨rfl, rfl, hdpos⟩

/-- C2 witness: two loaded choyas placed at the player's position, cooldown 0,
3 lives: the tick costs exactly one life. -/
theorem hazardPhase_single_damage_witness :
    (hazardPhase [{ x := 0, z := 0, size := 1, modelLoaded := true },
        { x := 0, z := 0, size := 1, modelLoaded := true }] [] 0 (3/5) 0 (2/5) c3Start).lives
      = c3Start.lives - 1 := by
  refine (hazardPhase_single_damage _ _ _ _ _ _ c3Start (by norm_num [c3Start])
    (by norm_num [c3Start]) ?_).1
  have hck : Choya.checkCollision { x := 0, z := 0, size := 1, modelLoaded := true }
      0 (3/5) 0 (2/5) = true := by
    unfold Choya.checkCollision sqrtLt Choya.collisionRadius
    norm_num
  simp [List.countP_cons, List.countP_nil, hck]

/-- Helper: vertStep never leaves the player below groundY: either the
post-integration height was at most groundY and was snapped to exactly
groundY, or it was above groundY and kept. -/
theorem vertStep_posY_ge (s : CowboyPlayer) : groundY ≤ (CowboyPlayer.vertStep s).posY := by
  unfold CowboyPlayer.vertStep CowboyPlayer.checkGroundCollision
  split
  · exact le_refl _
  · next h => exact le_of_lt (not_le.mp h)

/-- Helper: a player standing at groundY with zero vertical velocity is a
fixed point of vertStep: gravity pulls the candidate height below groundY and
the ground resolution snaps it straight back. -/
theorem vertStep_settled (s : CowboyPlayer) (hy : s.posY = groundY) (hv : s.velY = 0) :
    (CowboyPlayer.vertStep s).posY = groundY ∧ (CowboyPlayer.vertStep s).velY = 0 ∧
      (CowboyPlayer.vertStep s).onGround = true := by
  have hcond : (CowboyPlayer.applyPhysics s).posY ≤ groundY := by
    show s.posY + (s.velY + gravity) ≤ groundY
    rw [hy, hv]
    norm_num [groundY, gravity]
  unfold CowboyPlayer.vertStep CowboyPlayer.checkGroundCollision
  rw [if_pos hcond]
  exact ⟨rfl, rfl, rfl⟩

/-- Helper: the snapping branch of vertStep. -/
theorem vertStep_of_le {s : CowboyPlayer}
    (h : (CowboyPlayer.applyPhysics s).posY ≤ groundY) :
    CowboyPlayer.vertStep s =
      { CowboyPlayer.applyPhysics s with posY := groundY, velY := 0, onGround := true } := by
  unfold CowboyPlayer.vertStep CowboyPlayer.checkGroundCollision
  rw [if_pos h]

/-- Helper: the airborne branch of vertStep. -/
theorem vertStep_of_gt {s : CowboyPlayer}
    (h : ¬ (CowboyPlayer.applyPhysics s).posY ≤ groundY) :
    CowboyPlayer.vertStep s = { CowboyPlayer.applyPhysics s with onGround := false } := by
  unfold CowboyPlayer.vertStep CowboyPlayer.checkGroundCollision
  rw [if_neg h]

/-- Helper: free fall from rest follows the explicit triangular-sum
trajectory until the tick on which it grounds, after which it is settled. -/
theorem vertStep_trajectory (s : CowboyPlayer) (hv : s.velY = 0) :
    ∀ n : ℕ,
      ((CowboyPlayer.vertStep^[n] s).posY = groundY ∧
        (CowboyPlayer.vertStep^[n] s).velY = 0 ∧
        (CowboyPlayer.vertStep^[n] s).onGround = true) ∨
      ((CowboyPlayer.vertStep^[n] s).posY =
          s.posY + gravity * ((n : ℚ) * ((n : ℚ) + 1) / 2) ∧
        (CowboyPlayer.vertStep^[n] s).velY = gravity * (n : ℚ)) := by
  intro n
  induction n with
  | zero =>
      right
      simp [hv]
  | succ k ih =>
      rw [Function.iterate_succ_apply']
      rcases ih with hsettled | hair
      · exact Or.inl (vertStep_settled _ hsettled.1 hsettled.2.1)
      · have hcond : (CowboyPlayer.applyPhysics (CowboyPlayer.vertStep^[k] s)).posY =
            s.posY + gravity * ((k : ℚ) * ((k : ℚ) + 1) / 2) + (gravity * (k : ℚ) + gravity) := by
          show (CowboyPlayer.vertStep^[k] s).posY +
              ((CowboyPlayer.vertStep^[k] s).velY + gravity) = _
          rw [hair.1, hair.2]
        by_cases hle : (CowboyPlayer.applyPhysics (CowboyPlayer.vertStep^[k] s)).posY ≤ groundY
        · left
          rw [vertStep_of_le hle]
          exact ⟨rfl, rfl, rfl⟩
        · right
          rw [vertStep_of_gt hle]
          constructor
          · show (CowboyPlayer.applyPhysics (CowboyPlayer.vertStep^[k] s)).posY = _
            rw [hcond]
            push_cast
            ring
          · show (CowboyPlayer.vertStep^[k] s).velY + gravity = _
            rw [hair.2]
            push_cast
            ring

/-- C6: starting at rest at any height at or above the ground, iterating the
per-tick physics (velocity.y += −0.015; position.y += velocity.y) followed by
ground-collision resolution reaches, within a bounded number of ticks, the
grounded fixed point posY = groundY, velY = 0, onGround = true, and every
further tick preserves that state. -/
theorem vertStep_converges (s : CowboyPlayer) (hv : s.velY = 0) (hy : groundY ≤ s.posY) :
    (∃ N : ℕ, ∀ n : ℕ, N ≤ n →
      (CowboyPlayer.vertStep^[n] s).posY = groundY ∧
      (CowboyPlayer.vertStep^[n] s).velY = 0 ∧
      (CowboyPlayer.vertStep^[n] s).onGround = true) ∧
    (∀ t : CowboyPlayer, t.posY = groundY → t.velY = 0 →
      (CowboyPlayer.vertStep t).posY = groundY ∧ (CowboyPlayer.vertStep t).velY = 0 ∧
        (CowboyPlayer.vertStep t).onGround = true) := by
  refine ⟨?_, fun t ht hv2 => vertStep_settled t ht hv2⟩
  refine ⟨Nat.ceil ((s.posY - groundY) * (200/3)) + 1, ?_⟩
  intro n hn
  rcases vertStep_trajectory s hv n with h | h
  · exact h
  · exfalso
    have hn1 : 1 ≤ n := le_trans (Nat.le_add_left 1 _) hn
    have hge : groundY ≤ (CowboyPlayer.vertStep^[n] s).posY := by
      obtain ⟨m, rfl⟩ : ∃ m, n = m + 1 := ⟨n - 1, by omega⟩
      rw [Function.iterate_succ_apply']
      exact vertStep_posY_ge _
    rw [h.1] at hge
    rw [show gravity = -3/200 from rfl] at hge
    have hceil : ((s.posY - groundY) * (200/3) : ℚ) ≤
        ((Nat.ceil ((s.posY - groundY) * (200/3)) : ℕ) : ℚ) := Nat.le_ceil _
    have hcast : ((Nat.ceil ((s.posY - groundY) * (200/3)) : ℕ) : ℚ) + 1 ≤ (n : ℚ) := by
      exact_mod_cast hn
    have hquad : (n : ℚ) ≤ (n : ℚ) * ((n : ℚ) + 1) / 2 := by
      have h1 : (1 : ℚ) ≤ (n : ℚ) := by exact_mod_cast hn1
      nlinarith [mul_nonneg (by linarith : (0:ℚ) ≤ (n:ℚ)) (by linarith : (0:ℚ) ≤ (n:ℚ) - 1)]
    linarith

/-- C6 witness: the scenario of the spec — the controller at height 2, at
rest: it settles on the ground and stays there. -/
theorem vertStep_converges_witness :
    (∃ N : ℕ, ∀ n : ℕ, N ≤ n →
      (CowboyPlayer.vertStep^[n]
        { lives := 3, damageCooldown := 0, posY := 2, velY := 0, onGround := false }).posY
          = groundY ∧
      (CowboyPlayer.vertStep^[n]
        { lives := 3, damageCooldown := 0, posY := 2, velY := 0, onGround := false }).velY = 0 ∧
      (CowboyPlayer.vertStep^[n]
        { lives := 3, damageCooldown := 0, posY := 2, velY := 0, onGround := false }).onGround
          = true) :=
  (vertStep_converges { lives := 3, damageCooldown := 0, posY := 2, velY := 0, onGround := false }
    rfl (by norm_num [groundY])).1

/-- C10: at the end of every CowboyPlayer.update with deltaTime ≥ 0 the player
sits at or above the fixed ground plane groundY = 0.3 — a below-ground
candidate height is clamped to groundY with velocity zeroed, never respawned
elsewhere — and onGround is recomputed each tick to be true exactly when the
post-integration height was at or below groundY. -/
theorem update_ground_clamp (dt : ℚ) (j : Bool) (s : CowboyPlayer) (hdt : 0 ≤ dt) :
    groundY ≤ (CowboyPlayer.update dt j s).posY ∧
    ((CowboyPlayer.update dt j s).onGround = true ↔
      (CowboyPlayer.applyPhysics (CowboyPlayer.handleInput j
        (CowboyPlayer.cooldownTick dt s))).posY ≤ groundY) ∧
    ((CowboyPlayer.applyPhysics (CowboyPlayer.handleInput j
        (CowboyPlayer.cooldownTick dt s))).posY ≤ groundY →
      (CowboyPlayer.update dt j s).posY = groundY ∧ (CowboyPlayer.update dt j s).velY = 0) := by
  unfold CowboyPlayer.update CowboyPlayer.checkGroundCollision
  by_cases h : (CowboyPlayer.applyPhysics (CowboyPlayer.handleInput j
      (CowboyPlayer.cooldownTick dt s))).posY ≤ groundY
  · rw [if_pos h]
    exact ⟨le_refl _, by simp [h], fun _ => ⟨rfl, rfl⟩⟩
  · rw [if_neg h]
    refine ⟨?_, by simp [h], fun hc => absurd hc h⟩
    show groundY ≤ (CowboyPlayer.applyPhysics (CowboyPlayer.handleInput j
      (CowboyPlayer.cooldownTick dt s))).posY
    exact le_of_lt (not_le.mp h)

/-- C10 witness: one update tick from the resting state keeps the player on
the ground plane. -/
theorem update_ground_clamp_witness :
    groundY ≤ (CowboyPlayer.update 0 false c3Start).posY :=
  (update_ground_clamp 0 false c3Start (le_refl 0)).1

/-- Helper: the aging pass equals filtering out expired spines and refreshing
the opacity of the survivors. -/
theorem ageSpines_eq_filter_map (now : ℚ) (l : List SpineData) :
    ageSpines now l =
      (l.filter fun sp => decide (now - sp.startTime < sp.fadeDuration)).map
        (fun sp => { sp with opacity := 1 - (now - sp.startTime) / sp.fadeDuration }) := by
  induction l with
  | nil => rfl
  | cons sp rest ih =>
      by_cases h : sp.fadeDuration ≤ now - sp.startTime
      · have hd : decide (now - sp.startTime < sp.fadeDuration) = false := by
          simp [not_lt.mpr h]
        simp only [ageSpines, if_pos h, List.filter_cons, hd]
        simpa using ih
      · have hd : decide (now - sp.startTime < sp.fadeDuration) = true := by
          simp [not_le.mp h]
        simp only [ageSpines, if_neg h, List.filter_cons, hd]
        simpa using congrArg
          (List.cons { sp with opacity := 1 - (now - sp.startTime) / sp.fadeDuration }) ih

/-- Helper: every spine surviving the aging pass is strictly inside its fade
window and carries the refreshed opacity. -/
theorem ageSpines_mem (now : ℚ) (l : List SpineData) :
    ∀ sp ∈ ageSpines now l,
      now - sp.startTime < sp.fadeDuration ∧
      sp.opacity = 1 - (now - sp.startTime) / sp.fadeDuration := by
  induction l with
  | nil =>
      intro sp h
      simp [ageSpines] at h
  | cons a rest ih =>
      intro sp h
      simp only [ageSpines] at h
      split at h
      · exact ih sp h
      · next hlt =>
          rcases List.mem_cons.mp h with rfl | h2
          · exact ⟨not_le.mp hlt, rfl⟩
          · exact ih sp h2

/-- C9: after a spine-aging pass at time now, the active set is exactly the
previously active spines with elapsed < fadeDuration, each with opacity set to
1 − elapsed/fadeDuration; every spine with elapsed ≥ fadeDuration has been
removed, so no effect outlives its fadeDuration; and teardown empties the
active set at once without waiting for expiry. -/
theorem ageSpines_spec (now : ℚ) (l : List SpineData) :
    ageSpines now l =
      (l.filter fun sp => decide (now - sp.startTime < sp.fadeDuration)).map
        (fun sp => { sp with opacity := 1 - (now - sp.startTime) / sp.fadeDuration }) ∧
    (∀ sp ∈ ageSpines now l,
      now - sp.startTime < sp.fadeDuration ∧
      sp.opacity = 1 - (now - sp.startTime) / sp.fadeDuration) ∧
    disposeSpines l = [] :=
  ⟨ageSpines_eq_filter_map now l, ageSpines_mem now l, rfl⟩

/-- C9 witness: a spine spawned at 0 with fadeDuration 3000, aged at
now = 1000, survives with opacity 2/3 and is inside its fade window. -/
theorem ageSpines_spec_witness :
    (1000 : ℚ) -
        ({ startTime := 0, fadeDuration := 3000, opacity := 2/3 } : SpineData).startTime <
      ({ startTime := 0, fadeDuration := 3000, opacity := 2/3 } : SpineData).fadeDuration := by
  have hmem : ({ startTime := 0, fadeDuration := 3000, opacity := 2/3 } : SpineData) ∈
      ageSpines 1000 [{ startTime := 0, fadeDuration := 3000, opacity := 1 }] := by
    unfold ageSpines
    norm_num
  exact ((ageSpines_spec 1000
    [{ startTime := 0, fadeDuration := 3000, opacity := 1 }]).2.1 _ hmem).1

/-- Helper: the displacement and boundary blocks move the actor by the
heading-derived vector times the species speed, keep the timer, and override
the heading to atan2(−x, −z) exactly when the post-move position lies outside
the boundary radius. -/
theorem wanderStep_fields (T : TrigModel) (P : SpeciesParams) (t : WanderState) :
    (wanderBoundary T (wanderMove T P t)).x = t.x + T.sinF t.wanderDirection * P.speed ∧
    (wanderBoundary T (wanderMove T P t)).z = t.z + T.cosF t.wanderDirection * P.speed ∧
    (wanderBoundary T (wanderMove T P t)).wanderTimer = t.wanderTimer ∧
    (wanderMaxDistance ^ 2 < (wanderBoundary T (wanderMove T P t)).x ^ 2 +
        (wanderBoundary T (wanderMove T P t)).z ^ 2 →
      (wanderBoundary T (wanderMove T P t)).wanderDirection =
        T.atan2F (-(wanderBoundary T (wanderMove T P t)).x)
          (-(wanderBoundary T (wanderMove T P t)).z)) ∧
    (¬ wanderMaxDistance ^ 2 < (wanderBoundary T (wanderMove T P t)).x ^ 2 +
        (wanderBoundary T (wanderMove T P t)).z ^ 2 →
      (wanderBoundary T (wanderMove T P t)).wanderDirection = t.wanderDirection) := by
  unfold wanderBoundary wanderMove
  split
  · next h => exact ⟨rfl, rfl, rfl, fun _ => rfl, fun hc => absurd h hc⟩
  · next h => exact ⟨rfl, rfl, rfl, fun hc => absurd hc h, fun _ => rfl⟩

/-- C8: for every ambient actor species (horse, cow, chicken) and every tick:
the wander timer is incremented by deltaTime, and when it exceeds the
randomized per-species threshold the heading is redrawn as u2·2π (uniform in
[0, 2π) for a uniform draw u2) and the timer reset; the actor is displaced by
the heading-derived vector times its fixed species speed on every tick
regardless of the timer; and whenever the post-move distance from the origin
exceeds the fixed radius 80, the heading is overridden to atan2(−x, −z), so
at the end of any tick that leaves the actor beyond the radius its heading
points back toward the origin. -/
theorem wanderUpdate_spec (T : TrigModel) (P : SpeciesParams) (dt u1 u2 : ℚ) (s : WanderState)
    (hP : P = horseParams ∨ P = cowParams ∨ P = chickenParams) :
    ((P.thresholdBase + u1 * P.thresholdRange < s.wanderTimer + dt ∧
        wanderHeading T P dt u1 u2 s = u2 * T.twoPiF ∧
        (wanderUpdate T P dt u1 u2 s).wanderTimer = 0) ∨
      (¬ P.thresholdBase + u1 * P.thresholdRange < s.wanderTimer + dt ∧
        wanderHeading T P dt u1 u2 s = s.wanderDirection ∧
        (wanderUpdate T P dt u1 u2 s).wanderTimer = s.wanderTimer + dt)) ∧
    (wanderUpdate T P dt u1 u2 s).x =
      s.x + T.sinF (wanderHeading T P dt u1 u2 s) * P.speed ∧
    (wanderUpdate T P dt u1 u2 s).z =
      s.z + T.cosF (wanderHeading T P dt u1 u2 s) * P.speed ∧
    (wanderMaxDistance ^ 2 <
        (wanderUpdate T P dt u1 u2 s).x ^ 2 + (wanderUpdate T P dt u1 u2 s).z ^ 2 →
      (wanderUpdate T P dt u1 u2 s).wanderDirection =
        T.atan2F (-(wanderUpdate T P dt u1 u2 s).x) (-(wanderUpdate T P dt u1 u2 s).z)) ∧
    (¬ wanderMaxDistance ^ 2 <
        (wanderUpdate T P dt u1 u2 s).x ^ 2 + (wanderUpdate T P dt u1 u2 s).z ^ 2 →
      (wanderUpdate T P dt u1 u2 s).wanderDirection = wanderHeading T P dt u1 u2 s) := by
  by_cases htr : P.thresholdBase + u1 * P.thresholdRange < s.wanderTimer + dt
  · have h1 : wanderRedraw T P dt u1 u2 s =
        { s with wanderDirection := u2 * T.twoPiF, wanderTimer := 0 } := by
      unfold wanderRedraw
      rw [if_pos htr]
    have hh : wanderHeading T P dt u1 u2 s = u2 * T.twoPiF := by
      unfold wanderHeading
      rw [if_pos htr]
    have hU : wanderUpdate T P dt u1 u2 s =
        wanderBoundary T (wanderMove T P
          ({ s with wanderDirection := u2 * T.twoPiF, wanderTimer := 0 })) := by
      unfold wanderUpdate
      rw [h1]
    have h2 := wanderStep_fields T P
      ({ s with wanderDirection := u2 * T.twoPiF, wanderTimer := 0 })
    rw [hU, hh]
    exact ⟨Or.inl ⟨htr, rfl, h2.2.2.1⟩, h2.1, h2.2.1, h2.2.2.2.1, h2.2.2.2.2⟩
  · have h1 : wanderRedraw T P dt u1 u2 s = { s with wanderTimer := s.wanderTimer + dt } := by
      unfold wanderRedraw
      rw [if_neg htr]
    have hh : wanderHeading T P dt u1 u2 s = s.wanderDirection := by
      unfold wanderHeading
      rw [if_neg htr]
    have hU : wanderUpdate T P dt u1 u2 s =
        wanderBoundary T (wanderMove T P ({ s with wanderTimer := s.wanderTimer + dt })) := by
      unfold wanderUpdate
      rw [h1]
    have h2 := wanderStep_fields T P ({ s with wanderTimer := s.wanderTimer + dt })
    rw [hU, hh]
    exact ⟨Or.inr ⟨htr, rfl, h2.2.2.1⟩, h2.1, h2.2.1, h2.2.2.2.1, h2.2.2.2.2⟩

/-- C8 witness: the displacement equation of wanderUpdate_spec evaluated for a
cow at the origin with a concrete trig interface and concrete random draws. -/
theorem wanderUpdate_spec_witness :
    (wanderUpdate { sinF := fun _ => 0, cosF := fun _ => 1, atan2F := fun _ _ => 0, twoPiF := 7 }
        cowParams 1 0 0 { x := 0, z := 0, wanderDirection := 0, wanderTimer := 0 }).x =
      ({ x := 0, z := 0, wanderDirection := 0, wanderTimer := 0 } : WanderState).x +
        ({ sinF := fun _ => 0, cosF := fun _ => 1, atan2F := fun _ _ => 0,
            twoPiF := 7 } : TrigModel).sinF
          (wanderHeading
            { sinF := fun _ => 0, cosF := fun _ => 1, atan2F := fun _ _ => 0, twoPiF := 7 }
            cowParams 1 0 0 { x := 0, z := 0, wanderDirection := 0, wanderTimer := 0 }) *
          cowParams.speed :=
  (wanderUpdate_spec
    { sinF := fun _ => 0, cosF := fun _ => 1, atan2F := fun _ _ => 0, twoPiF := 7 }
    cowParams 1 0 0 { x := 0, z := 0, wanderDirection := 0, wanderTimer := 0 }
    (Or.inr (Or.inl rfl))).2.1

end Ranch
